import Mathlib

/-!
# Verification of the `rust-learning` client-server chat

Shallow embedding of the repository's `client-server` workspace:

* `cli_ser` — the `cli-ser` crate (`client-server/cli-ser/src/lib.rs`):
  length-prefixed framing (`read_bytes` / `write_bytes`), the message model
  (`cli::Msg`, `ser::Msg`, `Data`, `File`, `Image`), and the payload save
  operations.
* `db` — the server's database layer (`client-server/server/src/db.rs`):
  `log_in`, `sign_up`, `record_msg_to_all`.
* `client` — the client library (`client-server/client/src/lib.rs`):
  the stdin command parser, `make_message`, `handle_input`, `process_msg`.
* `server` — the server core (dispatcher, authentication state machine and
  reader-task classification).  The file `client-server/server/src/lib.rs`
  present in the tree is a stale earlier revision: it does not reference
  `db.rs` (`mod db` is declared nowhere), it imports items the sibling
  `cli-ser` crate does not define (`ServerErr`, `ser::Msg::Info`,
  struct-variant `cli::Msg::Auth`, `cli::Msg::Data`), and it leaves the
  post-authentication `Auth` arm as `todo!()`, so it cannot be compiled
  against the crates and integration tests that are in the tree.  The server
  core those tests exercise is therefore modelled from the specification
  (each such definition carries a `Modelled from the spec:` doc comment).

Modelling conventions:

* Bytes are `Nat` (values 0..255 where produced by the embedding); machine
  casts are explicit `% 2^32`.
* A TCP stream is the list of bytes readable from it; reads return the value
  read together with the remaining stream.  An exhausted stream models the
  peer closing the connection (`UnexpectedEof` -> `DisconnectedStream`).
  OS-level read/write failures other than EOF have no counterpart in the
  model, so the `ReceiveBytes` / `SendBytes` constructors are never produced
  by it.
* `bincode` (external crate) is modelled by an executable tag-plus-length
  encoder with the same shape as bincode's enum encoding; `serde` derive is
  modelled by writing fields in declaration order.
* The filesystem is a map from paths (lists of components) to byte lists;
  OS strings are modelled as already-unicode `String`s, so the lossy UTF-8
  conversion of a path component is the identity on the model.
* `argon2` (external crate) is modelled by its contract: `hash_password`
  keeps the salt and an opaque digest of the password (the model digest is
  the password itself, standing for the one-way image), and
  `verify_password` succeeds exactly when the password matches the digest.
* Timestamps (`Utc::now`) are passed in as an explicit `now : String`
  parameter.
-/

/-- A byte on the wire or in a file, modelled as `Nat`. -/
abbrev Byte := Nat

/-- A filesystem path, modelled as its list of components (`Path` itself is taken by Mathlib). -/
abbrev FsPath := List String

/-- A filesystem: maps a path to the contents of the file there, if any. -/
abbrev FS := FsPath → Option (List Byte)

/-- Creating (or replacing) the file at `p` with contents `b`
(`create_file_and_write_bytes` in `cli-ser`, which truncates on create). -/
def fsWrite (fs : FS) (p : FsPath) (b : List Byte) : FS :=
  fun q => if q = p then some b else fs q

namespace cli_ser

/-- `cli_ser::Error` from `client-server/cli-ser/src/lib.rs` (payloads of the
underlying `io`/`bincode`/`image` errors are dropped by the model). -/
inductive Error where
  | ReceiveBytes
  | DisconnectedStream
  | SendBytes
  | SerializeMsg
  | DeserializeMsg
  | LoadFile
  | SaveFile
  | DecodeImg
  | ConvertImg
deriving DecidableEq, Repr

/-! ## Integer and length encoding (model of bincode's integer encoding)

`digits256 fuel n` computes the base-256 digits of `n` (little-endian) as
long as `fuel` bounds `n`; `encLen` prefixes them with their count so the
encoding is self-delimiting. -/

/-- Base-256 little-endian digits of `n`, with structural fuel. -/
def digits256 : Nat → Nat → List Byte
  | 0, _ => []
  | _ + 1, 0 => []
  | fuel + 1, n + 1 => ((n + 1) % 256) :: digits256 fuel ((n + 1) / 256)

/-- Recombine base-256 little-endian digits. -/
def undigits : List Byte → Nat
  | [] => 0
  | d :: ds => d + 256 * undigits ds

theorem undigits_digits256 (fuel : Nat) : ∀ n : Nat, n ≤ fuel →
    undigits (digits256 fuel n) = n := by
  induction fuel with
  | zero =>
    intro n hn
    interval_cases n
    simp [digits256, undigits]
  | succ f ih =>
    intro n hn
    match n with
    | 0 => simp [digits256, undigits]
    | m + 1 =>
      have hdiv : (m + 1) / 256 ≤ f := by
        have : (m + 1) / 256 < m + 1 := Nat.div_lt_self (Nat.succ_pos m) (by norm_num)
        omega
      simp only [digits256, undigits, ih _ hdiv]
      omega

/-- Self-delimiting length/integer encoding: digit count, then the digits. -/
def encLen (n : Nat) : List Byte :=
  (digits256 n n).length :: digits256 n n

/-- Decoder for `encLen`; returns the value and the remaining bytes. -/
def decLen : List Byte → Option (Nat × List Byte)
  | [] => none
  | k :: rest =>
    if k ≤ rest.length then some (undigits (rest.take k), rest.drop k) else none

theorem decLen_encLen (n : Nat) (r : List Byte) :
    decLen (encLen n ++ r) = some (n, r) := by
  simp only [encLen, decLen, List.cons_append]
  rw [if_pos (by simp)]
  rw [List.take_left, List.drop_left]
  rw [undigits_digits256 n n (Nat.le_refl n)]

/-- Length-prefixed raw byte list (model of bincode's `Vec<u8>` encoding). -/
def encBytes (l : List Byte) : List Byte := encLen l.length ++ l

/-- Decoder for `encBytes`. -/
def decBytes (l : List Byte) : Option (List Byte × List Byte) :=
  match decLen l with
  | some (n, r) => if n ≤ r.length then some (r.take n, r.drop n) else none
  | none => none

theorem decBytes_encBytes (l r : List Byte) :
    decBytes (encBytes l ++ r) = some (l, r) := by
  simp only [encBytes, List.append_assoc, decBytes, decLen_encLen]
  rw [if_pos (by simp)]
  rw [List.take_left, List.drop_left]

/-! ## Framing (`read_bytes` / `write_bytes`) -/

/-- Big-endian bytes of a `u32` value (`tokio`'s `read_u32`/`write_u32` are
big-endian). -/
def u32_be (n : Nat) : List Byte :=
  [n / 16777216 % 256, n / 65536 % 256, n / 256 % 256, n % 256]

/-- Embeds `cli_ser::read_bytes`: read a big-endian `u32` length prefix, then
exactly that many payload bytes.  `UnexpectedEof` at either step maps to
`DisconnectedStream`; any other OS read error would map to `ReceiveBytes`,
which the pure stream model cannot produce.  There is no check on the value
of the length prefix. -/
def read_bytes (stream : List Byte) : Except Error (List Byte × List Byte) :=
  match stream with
  | b0 :: b1 :: b2 :: b3 :: rest =>
    if ((b0 * 256 + b1) * 256 + b2) * 256 + b3 ≤ rest.length then
      .ok (rest.take (((b0 * 256 + b1) * 256 + b2) * 256 + b3),
           rest.drop (((b0 * 256 + b1) * 256 + b2) * 256 + b3))
    else
      .error .DisconnectedStream
  | _ => .error .DisconnectedStream

/-- Embeds `cli_ser::write_bytes`: write `bytes.len() as u32` (the `usize`
to `u32` cast truncates: value mod `2^32`) big-endian, then the payload,
then flush. -/
def write_bytes (bytes : List Byte) : List Byte :=
  u32_be (bytes.length % 4294967296) ++ bytes

theorem u32_be_fields (n : Nat) (h : n < 4294967296) :
    ((n / 16777216 % 256 * 256 + n / 65536 % 256) * 256 + n / 256 % 256) * 256 + n % 256
      = n := by
  omega

/-- General behaviour of a read after a write: the reader recovers exactly
the first `length % 2^32` payload bytes. -/
theorem read_bytes_write_bytes (bytes rest : List Byte) :
    read_bytes (write_bytes bytes ++ rest) =
      .ok (bytes.take (bytes.length % 4294967296),
           bytes.drop (bytes.length % 4294967296) ++ rest) := by
  have hlt : bytes.length % 4294967296 < 4294967296 :=
    Nat.mod_lt _ (by norm_num)
  have hle : bytes.length % 4294967296 ≤ bytes.length := Nat.mod_le _ _
  simp only [write_bytes, u32_be, read_bytes, List.cons_append, List.nil_append]
  rw [u32_be_fields _ hlt]
  rw [if_pos (by rw [List.length_append]; exact le_trans hle (Nat.le_add_right _ _))]
  rw [List.take_append_of_le_length hle, List.drop_append_of_le_length hle]

/-- Round trip for payloads that fit the 32-bit length prefix. -/
theorem read_bytes_write_bytes_exact (bytes rest : List Byte)
    (h : bytes.length < 4294967296) :
    read_bytes (write_bytes bytes ++ rest) = .ok (bytes, rest) := by
  rw [read_bytes_write_bytes, Nat.mod_eq_of_lt h]
  simp

/-! ## The message model (`cli-ser` data types) -/

/-- `ImageFormatDef` / `image::ImageFormat`: the closed set of image codec
identifiers serialized on the wire. -/
inductive ImageFormat where
  | Png | Jpeg | Gif | WebP | Pnm | Tiff | Tga | Dds
  | Bmp | Ico | Hdr | OpenExr | Farbfeld | Avif | Qoi
deriving DecidableEq, Repr

/-- `format.extensions_str()[0]` of the `image` crate: the primary file
extension for each format. -/
def ImageFormat.ext : ImageFormat → String
  | .Png => "png"
  | .Jpeg => "jpg"
  | .Gif => "gif"
  | .WebP => "webp"
  | .Pnm => "pbm"
  | .Tiff => "tiff"
  | .Tga => "tga"
  | .Dds => "dds"
  | .Bmp => "bmp"
  | .Ico => "ico"
  | .Hdr => "hdr"
  | .OpenExr => "exr"
  | .Farbfeld => "ff"
  | .Avif => "avif"
  | .Qoi => "qoi"

/-- `cli_ser::Image`: a declared format and the encoded bytes. -/
structure Image where
  format : ImageFormat
  bytes : List Byte
deriving DecidableEq, Repr

/-- `cli_ser::File`: a file name and the raw bytes. -/
structure File where
  name : String
  bytes : List Byte
deriving DecidableEq, Repr

/-- `cli_ser::Data`: the payload union. -/
inductive Data where
  | Text (s : String)
  | File (f : File)
  | Image (i : Image)
deriving DecidableEq, Repr

/-- `cli_ser::User` is a newtype over `String`; the model uses the string. -/
abbrev User := String

/-- `cli::Credentials`. -/
structure Credentials where
  user : User
  password : String
deriving DecidableEq, Repr

namespace cli

/-- `cli::Auth`: the authentication request variants. -/
inductive Auth where
  | LogIn (c : Credentials)
  | SignUp (c : Credentials)
deriving DecidableEq, Repr

/-- `cli::Msg`: client-to-server messages. -/
inductive Msg where
  | Auth (a : Auth)
  | ToAll (d : Data)
deriving DecidableEq, Repr

end cli

namespace ser

/-- `ser::Error`: the server-signalled error kinds. -/
inductive Error where
  | ReceiveMsg (s : String)
  | SendMsgTo (m : cli.Msg) (u : User)
  | NotAuthenticated (m : cli.Msg)
  | AlreadyAuthenticated
  | WrongUser
  | WrongPassword
  | UsernameTaken
deriving DecidableEq, Repr

/-- `ser::Msg`: server-to-client messages. -/
inductive Msg where
  | Authenticated
  | Error (e : Error)
  | DataFrom (data : Data) (sender : User)
deriving DecidableEq, Repr

end ser

/-! ## Serialization (model of `bincode::serialize` / `deserialize`)

Each enum writes a tag byte followed by its fields in declaration order;
strings are length-prefixed lists of code points, byte vectors are
length-prefixed raw bytes.  Decoders return the value and the unconsumed
remainder; every decoder fails on the empty input since at least a tag or
length byte is required. -/

/-- Encoded string: length, then each character's code point. -/
def encString (s : String) : List Byte :=
  encLen s.data.length ++ (s.data.map (fun c => encLen c.toNat)).flatten

/-- Decode `n` characters. -/
def decChars : Nat → List Byte → Option (List Char × List Byte)
  | 0, l => some ([], l)
  | n + 1, l =>
    match decLen l with
    | none => none
    | some (m, r) =>
      match decChars n r with
      | none => none
      | some (cs, r2) => some (Char.ofNat m :: cs, r2)

/-- Decoder for `encString`. -/
def decString (l : List Byte) : Option (String × List Byte) :=
  match decLen l with
  | none => none
  | some (n, r) =>
    match decChars n r with
    | none => none
    | some (cs, r2) => some (String.mk cs, r2)

theorem decChars_enc (cs : List Char) (r : List Byte) :
    decChars cs.length ((cs.map (fun c => encLen c.toNat)).flatten ++ r) = some (cs, r) := by
  induction cs with
  | nil => simp [decChars]
  | cons c rest ih =>
    simp only [List.map_cons, List.flatten_cons, List.length_cons, List.append_assoc, decChars,
      decLen_encLen, ih, Char.ofNat_toNat]

theorem decString_encString (s : String) (r : List Byte) :
    decString (encString s ++ r) = some (s, r) := by
  cases s with
  | mk cs =>
    simp only [encString, List.append_assoc, decString, decLen_encLen, decChars_enc]

/-- Image format tag byte. -/
def encFormat (f : ImageFormat) : List Byte :=
  match f with
  | .Png => [0] | .Jpeg => [1] | .Gif => [2] | .WebP => [3] | .Pnm => [4]
  | .Tiff => [5] | .Tga => [6] | .Dds => [7] | .Bmp => [8] | .Ico => [9]
  | .Hdr => [10] | .OpenExr => [11] | .Farbfeld => [12] | .Avif => [13] | .Qoi => [14]

/-- Decoder for `encFormat`. -/
def decFormat : List Byte → Option (ImageFormat × List Byte)
  | 0 :: r => some (.Png, r)
  | 1 :: r => some (.Jpeg, r)
  | 2 :: r => some (.Gif, r)
  | 3 :: r => some (.WebP, r)
  | 4 :: r => some (.Pnm, r)
  | 5 :: r => some (.Tiff, r)
  | 6 :: r => some (.Tga, r)
  | 7 :: r => some (.Dds, r)
  | 8 :: r => some (.Bmp, r)
  | 9 :: r => some (.Ico, r)
  | 10 :: r => some (.Hdr, r)
  | 11 :: r => some (.OpenExr, r)
  | 12 :: r => some (.Farbfeld, r)
  | 13 :: r => some (.Avif, r)
  | 14 :: r => some (.Qoi, r)
  | _ => none

theorem decFormat_encFormat (f : ImageFormat) (r : List Byte) :
    decFormat (encFormat f ++ r) = some (f, r) := by
  cases f <;> rfl

/-- Encoded `Data` value. -/
def encData : Data → List Byte
  | .Text s => 0 :: encString s
  | .File f => 1 :: (encString f.name ++ encBytes f.bytes)
  | .Image i => 2 :: (encFormat i.format ++ encBytes i.bytes)

/-- Decoder for `encData`. -/
def decData : List Byte → Option (Data × List Byte)
  | 0 :: r =>
    match decString r with
    | some (s, r2) => some (.Text s, r2)
    | none => none
  | 1 :: r =>
    match decString r with
    | some (n, r2) =>
      match decBytes r2 with
      | some (b, r3) => some (.File ⟨n, b⟩, r3)
      | none => none
    | none => none
  | 2 :: r =>
    match decFormat r with
    | some (f, r2) =>
      match decBytes r2 with
      | some (b, r3) => some (.Image ⟨f, b⟩, r3)
      | none => none
    | none => none
  | _ => none

theorem decData_encData (d : Data) (r : List Byte) :
    decData (encData d ++ r) = some (d, r) := by
  cases d with
  | Text s => simp [encData, decData, decString_encString]
  | File f =>
    cases f with
    | mk n b =>
      simp [encData, decData, List.append_assoc, decString_encString, decBytes_encBytes]
  | Image i =>
    cases i with
    | mk f b =>
      simp [encData, decData, List.append_assoc, decFormat_encFormat, decBytes_encBytes]

/-- Encoded `Credentials` value: fields in declaration order. -/
def encCreds (c : Credentials) : List Byte :=
  encString c.user ++ encString c.password

/-- Decoder for `encCreds`. -/
def decCreds (l : List Byte) : Option (Credentials × List Byte) :=
  match decString l with
  | some (u, r) =>
    match decString r with
    | some (p, r2) => some (⟨u, p⟩, r2)
    | none => none
  | none => none

theorem decCreds_encCreds (c : Credentials) (r : List Byte) :
    decCreds (encCreds c ++ r) = some (c, r) := by
  cases c with
  | mk u p => simp [encCreds, decCreds, List.append_assoc, decString_encString]

/-- Encoded `cli::Msg` value. -/
def encCliMsg : cli.Msg → List Byte
  | .Auth (.LogIn c) => 0 :: 0 :: encCreds c
  | .Auth (.SignUp c) => 0 :: 1 :: encCreds c
  | .ToAll d => 1 :: encData d

/-- Decoder for `encCliMsg`. -/
def decCliMsg : List Byte → Option (cli.Msg × List Byte)
  | 0 :: 0 :: r =>
    match decCreds r with
    | some (c, r2) => some (.Auth (.LogIn c), r2)
    | none => none
  | 0 :: 1 :: r =>
    match decCreds r with
    | some (c, r2) => some (.Auth (.SignUp c), r2)
    | none => none
  | 1 :: r =>
    match decData r with
    | some (d, r2) => some (.ToAll d, r2)
    | none => none
  | _ => none

theorem decCliMsg_encCliMsg (m : cli.Msg) (r : List Byte) :
    decCliMsg (encCliMsg m ++ r) = some (m, r) := by
  cases m with
  | Auth a => cases a <;> simp [encCliMsg, decCliMsg, decCreds_encCreds]
  | ToAll d => simp [encCliMsg, decCliMsg, decData_encData]

/-- Encoded `ser::Error` value. -/
def encSerErr : ser.Error → List Byte
  | .ReceiveMsg s => 0 :: encString s
  | .SendMsgTo m u => 1 :: (encCliMsg m ++ encString u)
  | .NotAuthenticated m => 2 :: encCliMsg m
  | .AlreadyAuthenticated => [3]
  | .WrongUser => [4]
  | .WrongPassword => [5]
  | .UsernameTaken => [6]

/-- Decoder for `encSerErr`. -/
def decSerErr : List Byte → Option (ser.Error × List Byte)
  | 0 :: r =>
    match decString r with
    | some (s, r2) => some (.ReceiveMsg s, r2)
    | none => none
  | 1 :: r =>
    match decCliMsg r with
    | some (m, r2) =>
      match decString r2 with
      | some (u, r3) => some (.SendMsgTo m u, r3)
      | none => none
    | none => none
  | 2 :: r =>
    match decCliMsg r with
    | some (m, r2) => some (.NotAuthenticated m, r2)
    | none => none
  | 3 :: r => some (.AlreadyAuthenticated, r)
  | 4 :: r => some (.WrongUser, r)
  | 5 :: r => some (.WrongPassword, r)
  | 6 :: r => some (.UsernameTaken, r)
  | _ => none

theorem decSerErr_encSerErr (e : ser.Error) (r : List Byte) :
    decSerErr (encSerErr e ++ r) = some (e, r) := by
  cases e <;>
    simp [encSerErr, decSerErr, List.append_assoc, decString_encString, decCliMsg_encCliMsg]

/-- Encoded `ser::Msg` value. -/
def encSerMsg : ser.Msg → List Byte
  | .Authenticated => [0]
  | .Error e => 1 :: encSerErr e
  | .DataFrom d u => 2 :: (encData d ++ encString u)

/-- Decoder for `encSerMsg`. -/
def decSerMsg : List Byte → Option (ser.Msg × List Byte)
  | 0 :: r => some (.Authenticated, r)
  | 1 :: r =>
    match decSerErr r with
    | some (e, r2) => some (.Error e, r2)
    | none => none
  | 2 :: r =>
    match decData r with
    | some (d, r2) =>
      match decString r2 with
      | some (u, r3) => some (.DataFrom d u, r3)
      | none => none
    | none => none
  | _ => none

theorem decSerMsg_encSerMsg (m : ser.Msg) (r : List Byte) :
    decSerMsg (encSerMsg m ++ r) = some (m, r) := by
  cases m <;>
    simp [encSerMsg, decSerMsg, List.append_assoc, decSerErr_encSerErr, decData_encData,
      decString_encString]

/-! ## `Messageable` (`to_bytes` / `from_bytes` / `send` / `receive`)

`to_bytes` is `bincode::serialize` (infallible on these types, so the model
returns the bytes directly); `from_bytes` maps a decode failure to
`DeserializeMsg`; `receive` is `from_bytes` after `read_bytes`; `send` is
`write_bytes` after `to_bytes`.  The model `receive` also returns the
unconsumed remainder of the stream. -/

/-- `Messageable::to_bytes` for `cli::Msg`. -/
def cli.Msg.to_bytes (m : cli.Msg) : List Byte := encCliMsg m

/-- `Messageable::from_bytes` for `cli::Msg`. -/
def cli.Msg.from_bytes (payload : List Byte) : Except Error cli.Msg :=
  match decCliMsg payload with
  | some (m, _) => .ok m
  | none => .error .DeserializeMsg

/-- `Messageable::receive` for `cli::Msg`. -/
def cli.Msg.receive (stream : List Byte) : Except Error (cli.Msg × List Byte) :=
  match read_bytes stream with
  | .ok (payload, rest) =>
    match cli.Msg.from_bytes payload with
    | .ok m => .ok (m, rest)
    | .error e => .error e
  | .error e => .error e

/-- `Messageable::send` for `cli::Msg`: the bytes put on the stream. -/
def cli.Msg.send (m : cli.Msg) : List Byte := write_bytes m.to_bytes

/-- `Messageable::to_bytes` for `ser::Msg`. -/
def ser.Msg.to_bytes (m : ser.Msg) : List Byte := encSerMsg m

/-- `Messageable::from_bytes` for `ser::Msg`. -/
def ser.Msg.from_bytes (payload : List Byte) : Except cli_ser.Error ser.Msg :=
  match decSerMsg payload with
  | some (m, _) => .ok m
  | none => .error .DeserializeMsg

/-- `Messageable::receive` for `ser::Msg`. -/
def ser.Msg.receive (stream : List Byte) : Except cli_ser.Error (ser.Msg × List Byte) :=
  match read_bytes stream with
  | .ok (payload, rest) =>
    match ser.Msg.from_bytes payload with
    | .ok m => .ok (m, rest)
    | .error e => .error e
  | .error e => .error e

/-- `Messageable::send` for `ser::Msg`: the bytes put on the stream. -/
def ser.Msg.send (m : ser.Msg) : List Byte := write_bytes m.to_bytes

theorem cli_receive_send (m : cli.Msg) (rest : List Byte)
    (h : (encCliMsg m).length < 4294967296) :
    cli.Msg.receive (cli.Msg.send m ++ rest) = .ok (m, rest) := by
  simp only [cli.Msg.receive, cli.Msg.send, cli.Msg.to_bytes,
    read_bytes_write_bytes_exact _ _ h, cli.Msg.from_bytes]
  rw [show encCliMsg m = encCliMsg m ++ [] by simp, decCliMsg_encCliMsg]

theorem ser_receive_send (m : ser.Msg) (rest : List Byte)
    (h : (encSerMsg m).length < 4294967296) :
    ser.Msg.receive (ser.Msg.send m ++ rest) = .ok (m, rest) := by
  simp only [ser.Msg.receive, ser.Msg.send, ser.Msg.to_bytes,
    read_bytes_write_bytes_exact _ _ h, ser.Msg.from_bytes]
  rw [show encSerMsg m = encSerMsg m ++ [] by simp, decSerMsg_encSerMsg]

/-! ## Payload operations (`File`, `Image`) -/

/-- Model of `std::path::Path::file_name`: the final path component, or
`none` when the path has no final component (empty path, or a path that
terminates in the parent-directory component `..`). -/
def file_name (p : FsPath) : Option String :=
  match p.getLast? with
  | some c => if c = ".." then none else some c
  | none => none

/-- Embeds `File::from_path`: read all bytes at the path; the name is the
path's final component (already unicode in the model, so the lossy UTF-8
conversion is the identity) or `"unknown"` when there is none.  A missing
file is the `LoadFile` error. -/
def File.from_path (fs : FS) (p : FsPath) : Except Error File :=
  match fs p with
  | none => .error .LoadFile
  | some bytes =>
    .ok { name := match file_name p with
                  | some n => n
                  | none => "unknown"
          bytes := bytes }

/-- Embeds `File::save`: create/replace `dir/name` and write all bytes
(the model filesystem write cannot fail, so `SaveFile` is never produced). -/
def File.save (f : File) (dir : FsPath) (fs : FS) : FS :=
  fsWrite fs (dir ++ [f.name]) f.bytes

/-- The external `image` crate, modelled by its interface: format sniffing
from magic bytes, decoding to a pixel buffer (modelled as an opaque byte
list), and PNG re-encoding of a pixel buffer.  `none` models the
corresponding fallible operation failing. -/
structure ImgLib where
  guess_format : List Byte → Option ImageFormat
  decode : ImageFormat → List Byte → Option (List Byte)
  write_png : List Byte → Option (List Byte)

/-- Model of `std::path::Path::extension`: the part of the final component
after its last `.`, provided a nonempty stem precedes it. -/
def path_ext (p : FsPath) : Option String :=
  match file_name p with
  | none => none
  | some name =>
    let rev := name.data.reverse
    let extRev := rev.takeWhile (fun c => c ≠ '.')
    match rev.drop extRev.length with
    | '.' :: stem => if stem = [] then none else some (String.mk extRev.reverse)
    | _ => none

/-- Model of `image::ImageFormat::from_path`: pick the format from the file
extension (the crate also accepts the secondary extensions and upper case;
the model keeps the primary lower-case ones plus `jpeg`/`tif`). -/
def ImageFormat.from_path (p : FsPath) : Option ImageFormat :=
  match path_ext p with
  | none => none
  | some e =>
    if e = "png" then some .Png
    else if e = "jpg" ∨ e = "jpeg" then some .Jpeg
    else if e = "gif" then some .Gif
    else if e = "webp" then some .WebP
    else if e = "pbm" ∨ e = "pam" ∨ e = "ppm" ∨ e = "pgm" then some .Pnm
    else if e = "tiff" ∨ e = "tif" then some .Tiff
    else if e = "tga" then some .Tga
    else if e = "dds" then some .Dds
    else if e = "bmp" then some .Bmp
    else if e = "ico" then some .Ico
    else if e = "hdr" then some .Hdr
    else if e = "exr" then some .OpenExr
    else if e = "ff" then some .Farbfeld
    else if e = "avif" then some .Avif
    else if e = "qoi" then some .Qoi
    else none

/-- Embeds `Image::from_path`: read the bytes, guess the format from the
data or else from the path, then decode once to check validity. -/
def Image.from_path (lib : ImgLib) (fs : FS) (p : FsPath) : Except Error Image :=
  match fs p with
  | none => .error .LoadFile
  | some bytes =>
    match (lib.guess_format bytes).orElse (fun _ => ImageFormat.from_path p) with
    | none => .error .DecodeImg
    | some format =>
      match lib.decode format bytes with
      | none => .error .DecodeImg
      | some _ => .ok { format := format, bytes := bytes }

/-- Embeds `Image::create_path`: `dir/<timestamp>.<ext>` where the
timestamp is the `now` parameter. -/
def Image.create_path (dir : FsPath) (format : ImageFormat) (now : String) : FsPath :=
  dir ++ [now ++ "." ++ format.ext]

/-- Embeds `Image::save`: write the original bytes to
`create_path dir format now`; returns the new filesystem and the path. -/
def Image.save (i : Image) (dir : FsPath) (now : String) (fs : FS) : FS × FsPath :=
  (fsWrite fs (Image.create_path dir i.format now) i.bytes,
   Image.create_path dir i.format now)

/-- Embeds `Image::save_as_png`: when the format is not PNG, decode under the
declared format (`DecodeImg` on failure), re-encode as PNG (`ConvertImg` on
failure) and write to `dir/<timestamp>.png`; otherwise behave like `save`. -/
def Image.save_as_png (lib : ImgLib) (i : Image) (dir : FsPath) (now : String)
    (fs : FS) : Except Error (FS × FsPath) :=
  if i.format ≠ ImageFormat.Png then
    match lib.decode i.format i.bytes with
    | none => .error .DecodeImg
    | some img =>
      match lib.write_png img with
      | none => .error .ConvertImg
      | some png =>
        .ok (fsWrite fs (Image.create_path dir .Png now) png,
             Image.create_path dir .Png now)
  else
    .ok (Image.save i dir now fs)

end cli_ser

namespace client

open cli_ser

/-- Client configuration (`client::Config`); the server address is outside
the model. -/
structure Config where
  file_dir : FsPath
  img_dir : FsPath
  save_png : Bool

/-- `client::MsgCmd`: a parsed command that produces a message. -/
inductive MsgCmd where
  | File (p : String)
  | Image (p : String)
  | LogIn (u : String) (p : String)
  | SignUp (u : String) (p : String)
  | NoCmd (line : String)
deriving DecidableEq, Repr

/-- `client::ParseInputError`. -/
structure ParseInputError where
  msg : String
deriving DecidableEq, Repr

/-- `client::Command`. -/
inductive Command where
  | Msg (c : MsgCmd)
  | Quit
deriving DecidableEq, Repr

/-- Model of Rust's `str::split_whitespace` (structural, over the char
list): maximal runs of non-whitespace characters, empty pieces skipped. -/
def split_ws_aux : List Char → List Char → List String
  | [], cur => if cur = [] then [] else [String.mk cur.reverse]
  | c :: cs, cur =>
    if c.isWhitespace then
      if cur = [] then split_ws_aux cs []
      else String.mk cur.reverse :: split_ws_aux cs []
    else
      split_ws_aux cs (c :: cur)

/-- The words of a line (Rust `line.split_whitespace()` collected). -/
def split_whitespace (s : String) : List String :=
  split_ws_aux s.data []

/-- Model of `str::strip_prefix('.')`. -/
def strip_dot (w : String) : Option String :=
  match w.data with
  | '.' :: cs => some (String.mk cs)
  | _ => none

/-- The verb dispatch of `Command::from_str`, after the first token has been
split off (`words.next().and_then(|s| s.strip_prefix('.'))` succeeded with
`v`; `rest` is the remainder of the word iterator). -/
def parse_verb (v : String) (rest : List String) : Except ParseInputError Command :=
  if v = "quit" then
    match rest with
    | [] => .ok .Quit
    | _ => .error ⟨".quit command can not be followed by any text!"⟩
  else if v = "file" then
    match rest with
    | [f] => .ok (.Msg (.File f))
    | _ => .error ⟨"command \".file\" requires a path as the only argument!"⟩
  else if v = "image" then
    match rest with
    | [p] => .ok (.Msg (.Image p))
    | _ => .error ⟨"command \".image\" requires the path as the only argument!"⟩
  else if v = "login" then
    match rest with
    | [n, p] => .ok (.Msg (.LogIn n p))
    | _ => .error ⟨"command \".login\" needs a username, password and nothing else!"⟩
  else if v = "signup" then
    match rest with
    | [n, p] => .ok (.Msg (.SignUp n p))
    | _ => .error ⟨"command \".signup\" needs a username, password and nothing else!"⟩
  else
    .error ⟨"command \"." ++ v ++ "\" is not supported"⟩

/-- Embeds `Command::from_str` (`impl FromStr for Command`): first-token
dispatch; a missing first token or a first token without the leading dot
falls through to the text message. -/
def Command.from_str (line : String) : Except ParseInputError Command :=
  match split_whitespace line with
  | [] => .ok (.Msg (.NoCmd line))
  | w :: rest =>
    match strip_dot w with
    | some v => parse_verb v rest
    | none => .ok (.Msg (.NoCmd line))

/-- Model of `PathBuf::from` on the strings typed at the prompt: split on
`/`, dropping empty components. -/
def parse_path (s : String) : FsPath :=
  (s.data.foldr
    (fun c acc =>
      match acc with
      | [] => if c = '/' then [[]] else [[c]]
      | w :: ws => if c = '/' then [] :: w :: ws else (c :: w) :: ws)
    []).map String.mk |>.filter (fun w => w ≠ "")

/-- Embeds `client::make_message`: build the `cli::Msg` for a parsed
command, loading files and images from the (model) filesystem. -/
def make_message (lib : ImgLib) (fs : FS) : MsgCmd → Except cli_ser.Error cli.Msg
  | .File p =>
    match File.from_path fs (parse_path p) with
    | .ok f => .ok (.ToAll (.File f))
    | .error e => .error e
  | .Image p =>
    match Image.from_path lib fs (parse_path p) with
    | .ok i => .ok (.ToAll (.Image i))
    | .error e => .error e
  | .LogIn u p => .ok (.Auth (.LogIn ⟨u, p⟩))
  | .SignUp u p => .ok (.Auth (.SignUp ⟨u, p⟩))
  | .NoCmd t => .ok (.ToAll (.Text t))

/-- Embeds one iteration of `client::handle_input`: a parse error is
reported to the user and nothing is sent (`none`); a command whose message
cannot be built is reported and dropped (`none`); otherwise the built
message is sent. -/
def handle_input (lib : ImgLib) (fs : FS)
    (input : Except ParseInputError MsgCmd) : Option cli.Msg :=
  match input with
  | .error _ => none
  | .ok cmd =>
    match make_message lib fs cmd with
    | .ok m => some m
    | .error _ => none

/-- Embeds `client::process_msg`: received files are saved into
`config.file_dir`; received images into `config.img_dir` (as PNG when
configured); printing is outside the model and failures leave the
filesystem unchanged. -/
def process_msg (lib : ImgLib) (config : Config) (now : String) (fs : FS) :
    ser.Msg → FS
  | .DataFrom (.File f) _ => f.save config.file_dir fs
  | .DataFrom (.Image i) _ =>
    if config.save_png then
      match i.save_as_png lib config.img_dir now fs with
      | .ok (fs2, _) => fs2
      | .error _ => fs
    else
      (i.save config.img_dir now fs).1
  | _ => fs

end client

namespace db

open cli_ser

/-- The parsed form of an argon2 PHC verifier string: the salt and the
one-way image of the password.  The model digest is the password itself
(standing in for the argon2 function image); the PHC text serialization is
injective, so the stored `text` column is modelled by this structure. -/
structure PwHash where
  salt : String
  digest : String
deriving DecidableEq, Repr

/-- Model of `Argon2::default().hash_password(password, salt)`. -/
def hash_password (password salt : String) : PwHash :=
  { salt := salt, digest := password }

/-- Model of `Argon2::default().verify_password(password, hash)`: succeeds
exactly when the password matches the hashed one. -/
def verify_password (password : String) (h : PwHash) : Bool :=
  h.digest = password

/-- `db::User` (one row of the `users` table). -/
structure User where
  username : String
  password : PwHash
deriving DecidableEq, Repr

/-- The `users` table, in insertion order (`id` is the position). -/
abbrev Db := List User

/-- `db::Error`. -/
inductive Error where
  | WrongPassword (u : String)
  | UserDoesNotExist (u : String)
  | UsernameTaken (u : String)
  | Database
  | Security
deriving DecidableEq, Repr

/-- Embeds `Database::query_user`: `SELECT * FROM users WHERE username = $1`
with `fetch_optional` (first matching row, if any). -/
def query_user (d : Db) (username : String) : Option User :=
  d.find? (fun u => u.username == username)

/-- Embeds `Database::log_in`: fetch the user row (`UserDoesNotExist` when
absent), then verify the password against the stored verifier
(`WrongPassword` on mismatch).  The stored verifier always parses in the
model, so `Security` is not produced here. -/
def log_in (d : Db) (c : Credentials) : Except Error Unit :=
  match query_user d c.user with
  | none => .error (.UserDoesNotExist c.user)
  | some u =>
    if verify_password c.password u.password then .ok ()
    else .error (.WrongPassword c.user)

/-- Embeds `Database::sign_up`: hash the password, then — atomically under
the pool mutex — check the name is free (`UsernameTaken` otherwise) and
insert the new row.  Returns the updated table; the fresh salt is a
parameter (`SaltString::generate(OsRng)`). -/
def sign_up (d : Db) (c : Credentials) (salt : String) : Except Error Db :=
  let hashed := hash_password c.password salt
  match query_user d c.user with
  | some _ => .error (.UsernameTaken c.user)
  | none => .ok (d ++ [{ username := c.user, password := hashed }])

/-- One row of the `messages` table joined with its payload row (the
`texts`/`files`/`images` tables are inlined as the `Data` value; the
`arrived` timestamp is outside the model). -/
structure MsgRec where
  fromUser : String
  data : Data
deriving DecidableEq, Repr

/-- The store state seen by `record_msg_to_all`. -/
structure Store where
  users : Db
  messages : List MsgRec
deriving DecidableEq, Repr

/-- Embeds `Database::record_msg_to_all`: insert the payload row, and a
`messages` row joining it to the sender's `users` row via the
`usr AS (SELECT id FROM users WHERE username = $1)` CTE — when the user is
missing the CTE is empty and no `messages` row is inserted (the statement
still succeeds).  Connection-level `sqlx` failures (`Error::Database`) have
no counterpart in the pure model. -/
def record_msg_to_all (st : Store) (user : cli_ser.User) (d : Data) :
    Except Error Store :=
  .ok { st with
        messages :=
          if st.users.any (fun u => u.username == user) then
            st.messages ++ [{ fromUser := user, data := d }]
          else st.messages }

end db

namespace server

open cli_ser

/-- A peer socket address, modelled as an opaque number. -/
abbrev Addr := Nat

/-- Modelled from the spec: the server-internal `Task` union queued to the
central dispatcher — `Broadcast(from-addr, from-user, data)` and
`SendErr(to-addr, server-error)` (spec section 3; the final server's task
enum is part of the missing `server/src/lib.rs`). -/
inductive Task where
  | Broadcast (addr : Addr) (user : cli_ser.User) (d : Data)
  | SendErr (addr : Addr) (e : ser.Error)
deriving DecidableEq, Repr

/-- A client's bounded outbound channel: whether its receiver (the writer
task) is still there, and the messages queued to it, in order.  A send on a
channel whose receiver is gone fails and is dropped. -/
structure Chan where
  alive : Bool
  queue : List ser.Msg
deriving DecidableEq, Repr

/-- Sending on an outbound channel: enqueue when the receiver is alive,
silently drop otherwise. -/
def try_send (ch : Chan) (m : ser.Msg) : Chan :=
  if ch.alive then { ch with queue := ch.queue ++ [m] } else ch

/-- The client map: peer address to outbound channel sender, each address at
most once (spec section 3 invariant); modelled as an association list in
iteration order. -/
abbrev Clients := List (Addr × Chan)

/-- Modelled from the spec: the `Broadcast(from, user, data)` arm of the
central dispatcher — for each `(addr, sender)` in the client map with
`addr ≠ from`, try to send `DataFrom { data, from: user }` on that sender,
dropping silently a send whose receiver is gone (spec section 4.4; the
final `run` loop is part of the missing `server/src/lib.rs`). -/
def broadcast_arm (clients : Clients) (addr_from : Addr) (user : cli_ser.User)
    (d : Data) : Clients :=
  clients.map (fun p =>
    if p.1 ≠ addr_from then (p.1, try_send p.2 (.DataFrom d user)) else p)

/-- Modelled from the spec: the `SendErr(to, err)` arm of the central
dispatcher — if `to` is in the client map, send `Error(err)` on its sender,
else drop (spec section 4.4). -/
def send_err_arm (clients : Clients) (addr : Addr) (e : ser.Error) : Clients :=
  clients.map (fun p =>
    if p.1 = addr then (p.1, try_send p.2 (.Error e)) else p)

/-- Modelled from the spec: one iteration of the central dispatcher. -/
def run_task (clients : Clients) : Task → Clients
  | .Broadcast addr user d => broadcast_arm clients addr user d
  | .SendErr addr e => send_err_arm clients addr e

/-- Outcome of one step of the authentication handshake: stay `Greeted`
after answering `resp`, succeed as `u` (the connection becomes
`Authenticated` and `Authenticated` is sent), or fail fatally (store
internal error propagates and the socket closes). -/
inductive AuthStep where
  | Continue (resp : ser.Msg) (d : db.Db)
  | Success (u : cli_ser.User) (d : db.Db)
  | Fatal
deriving DecidableEq, Repr

/-- Modelled from the spec: one step of the authentication state machine on
a `Greeted` connection (spec section 4.4; the final `authenticate` is part
of the missing `server/src/lib.rs`).  `LogIn` calls `db.log_in` and
`SignUp` calls `db.sign_up` — those two are embedded from
`server/src/db.rs` — and the outcomes map to responses:
`UserDoesNotExist ↦ Error(WrongUser)`, `WrongPassword ↦
Error(WrongPassword)`, `UsernameTaken ↦ Error(UsernameTaken)`, any
non-`Auth` message `m ↦ Error(NotAuthenticated(m))`, store internal errors
propagate. -/
def authenticate (d : db.Db) (salt : String) : cli.Msg → AuthStep
  | .Auth (.LogIn c) =>
    match db.log_in d c with
    | .ok _ => .Success c.user d
    | .error (.UserDoesNotExist _) => .Continue (.Error .WrongUser) d
    | .error (.WrongPassword _) => .Continue (.Error .WrongPassword) d
    | .error _ => .Fatal
  | .Auth (.SignUp c) =>
    match db.sign_up d c salt with
    | .ok d2 => .Success c.user d2
    | .error (.UsernameTaken _) => .Continue (.Error .UsernameTaken) d
    | .error _ => .Fatal
  | m => .Continue (.Error (.NotAuthenticated m)) d

/-- Modelled from the spec: only a successful handshake registers the
connection in the client map (`process_socket` inserts the fresh outbound
sender only after `authenticate` returns Ok). -/
def register_client (clients : Clients) (addr : Addr) (st : AuthStep)
    (fresh : Chan) : Clients :=
  match st with
  | .Success _ _ => clients ++ [(addr, fresh)]
  | _ => clients

/-- What the authenticated reader observes on one loop iteration:
a decoded message, a clean peer disconnect, or another receive error. -/
inductive ReadEvent where
  | Received (m : cli.Msg)
  | Disconnected
  | RecvFailed (e : String)
deriving DecidableEq, Repr

/-- An effect the reader performs, in order: a store write
(`record_broadcast`) or an enqueue onto the central task queue. -/
inductive RAction where
  | Record (u : cli_ser.User) (d : Data)
  | Enqueue (t : Task)
deriving DecidableEq, Repr

/-- Modelled from the spec: classification of one reader-loop iteration
after authentication (spec section 4.4; the final `read_in_loop` is part of
the missing `server/src/lib.rs`, whose stale revision leaves the `Auth` arm
as `todo!()`).  `ToAll(data)` first records the broadcast, then enqueues
`Broadcast(addr, user, data)`; `Auth(*)` enqueues
`SendErr(addr, AlreadyAuthenticated)`; a clean disconnect breaks the loop;
any other receive error enqueues `SendErr(addr, ReceiveMsg(...))`.  The
returned flag is whether the loop continues. -/
def read_classify (addr : Addr) (user : cli_ser.User) :
    ReadEvent → List RAction × Bool
  | .Received (.ToAll d) =>
    ([.Record user d, .Enqueue (.Broadcast addr user d)], true)
  | .Received (.Auth _) =>
    ([.Enqueue (.SendErr addr .AlreadyAuthenticated)], true)
  | .Disconnected => ([], false)
  | .RecvFailed e => ([.Enqueue (.SendErr addr (.ReceiveMsg e))], true)

/-- Interpret one reader action over a store state and the task queue: a
failed store write is logged and otherwise ignored (spec section 7: store
failures during `record_broadcast` are logged at WARN and do not prevent
broadcast delivery). -/
def apply_action {σ : Type} (store : σ → cli_ser.User → Data → Except db.Error σ)
    (st : σ × List Task) (a : RAction) : σ × List Task :=
  match a with
  | .Record u d =>
    (match store st.1 u d with
     | .ok s2 => s2
     | .error _ => st.1,
     st.2)
  | .Enqueue t => (st.1, st.2 ++ [t])

/-- Modelled from the spec: one full reader-loop iteration — classify the
event, perform the actions in order, report the store state, the tasks
enqueued (in order) and whether the loop continues. -/
def read_step {σ : Type} (store : σ → cli_ser.User → Data → Except db.Error σ)
    (s : σ) (addr : Addr) (user : cli_ser.User) (ev : ReadEvent) :
    (σ × List Task) × Bool :=
  ((read_classify addr user ev).1.foldl (apply_action store) (s, []),
   (read_classify addr user ev).2)

end server

/-! ## Shared helper lemmas for the claim theorems -/

theorem getElem?_broadcast_arm (clients : server.Clients) (src : server.Addr)
    (user : cli_ser.User) (d : cli_ser.Data) (i : Nat) (a : server.Addr)
    (ch : server.Chan) (h : clients[i]? = some (a, ch)) :
    (server.broadcast_arm clients src user d)[i]? =
      some (a, if a ≠ src ∧ ch.alive = true
               then { ch with queue := ch.queue ++ [cli_ser.ser.Msg.DataFrom d user] }
               else ch) := by
  simp only [server.broadcast_arm, List.getElem?_map, h, Option.map_some]
  by_cases h1 : a = src
  · simp [h1, server.try_send]
  · by_cases h2 : ch.alive
    · simp [h1, h2, server.try_send]
    · simp [h1, h2, server.try_send]

theorem find?_append_of_none {α : Type} (p : α → Bool) (l₁ l₂ : List α)
    (h : l₁.find? p = none) : (l₁ ++ l₂).find? p = l₂.find? p := by
  rw [List.find?_append, h, Option.none_or]

/-! ## Claim theorems -/

/-- C10: `write_bytes` writes a length prefix equal to the payload's byte
count reduced modulo `2^32` (the `usize`-to-`u32` cast); reading the frame
back recovers exactly the first `length % 2^32` payload bytes, so the
read-after-write round trip returns the original bytes precisely when the
payload is shorter than `2^32` bytes. -/
theorem write_bytes_len_cast (bytes rest : List Byte) :
    cli_ser.write_bytes bytes = cli_ser.u32_be (bytes.length % 4294967296) ++ bytes ∧
    cli_ser.read_bytes (cli_ser.write_bytes bytes ++ rest) =
      .ok (bytes.take (bytes.length % 4294967296),
           bytes.drop (bytes.length % 4294967296) ++ rest) ∧
    (cli_ser.read_bytes (cli_ser.write_bytes bytes ++ rest) = .ok (bytes, rest) ↔
      bytes.length < 4294967296) := by
  refine ⟨rfl, cli_ser.read_bytes_write_bytes bytes rest, ?_, ?_⟩
  · intro h
    rw [cli_ser.read_bytes_write_bytes bytes rest] at h
    have htake : bytes.take (bytes.length % 4294967296) = bytes := by
      have := congrArg (fun r => match r with
        | Except.ok (p : List Byte × List Byte) => p.1
        | Except.error _ => []) h
      simpa using this
    have hlen := congrArg List.length htake
    simp only [List.length_take] at hlen
    have hmodle : bytes.length % 4294967296 ≤ bytes.length := Nat.mod_le _ _
    have hmodlt : bytes.length % 4294967296 < 4294967296 := Nat.mod_lt _ (by norm_num)
    omega
  · intro h
    exact cli_ser.read_bytes_write_bytes_exact bytes rest h

/-- C5 counterexample: on the concrete frame `[0, 0, 0, 0]` (32-bit length
prefix 0, no payload) the framed read `read_bytes` succeeds with the empty
payload — it does not fail at all, let alone with a `ReceiveBytes`-class
error — and the message `receive` on both sides fails with
`DeserializeMsg`, which is a different error kind. -/
theorem zero_len_frame_counterexample :
    cli_ser.read_bytes [0, 0, 0, 0] = .ok ([], []) ∧
    cli_ser.cli.Msg.receive [0, 0, 0, 0] = .error .DeserializeMsg ∧
    cli_ser.ser.Msg.receive [0, 0, 0, 0] = .error .DeserializeMsg ∧
    cli_ser.Error.DeserializeMsg ≠ cli_ser.Error.ReceiveBytes :=
  ⟨rfl, rfl, rfl, by decide⟩

/-- C5 amended: a frame whose 32-bit length prefix is 0 is read successfully
by `read_bytes` as an empty payload; decoding the empty payload then fails
with `DeserializeMsg`, so `receive` never yields a message.  There is no
maximum-frame-size check anywhere in `read_bytes`: a length prefix larger
than the bytes available on the stream ends in `DisconnectedStream` (EOF
inside `read_exact`), not `ReceiveBytes`. -/
theorem zero_len_frame_decode_rejects (rest bytes : List Byte) (b0 b1 b2 b3 : Byte) :
    cli_ser.read_bytes (0 :: 0 :: 0 :: 0 :: rest) = .ok ([], rest) ∧
    cli_ser.cli.Msg.receive (0 :: 0 :: 0 :: 0 :: rest) = .error .DeserializeMsg ∧
    cli_ser.ser.Msg.receive (0 :: 0 :: 0 :: 0 :: rest) = .error .DeserializeMsg ∧
    (bytes.length < ((b0 * 256 + b1) * 256 + b2) * 256 + b3 →
      cli_ser.read_bytes (b0 :: b1 :: b2 :: b3 :: bytes) = .error .DisconnectedStream) := by
  refine ⟨?_, ?_, ?_, ?_⟩
  · simp [cli_ser.read_bytes]
  · simp [cli_ser.cli.Msg.receive, cli_ser.read_bytes, cli_ser.cli.Msg.from_bytes,
      cli_ser.decCliMsg]
  · simp [cli_ser.ser.Msg.receive, cli_ser.read_bytes, cli_ser.ser.Msg.from_bytes,
      cli_ser.decSerMsg]
  · intro h
    have hn : ¬ (((b0 * 256 + b1) * 256 + b2) * 256 + b3 ≤ bytes.length) := Nat.not_le.mpr h
    simp only [cli_ser.read_bytes, if_neg hn]

/-- C5 witness for the amended claim, at the empty remainder and at the
oversized length prefix 1 over an exhausted stream. -/
theorem zero_len_frame_decode_rejects_witness :
    cli_ser.read_bytes [0, 0, 0, 0] = .ok ([], []) ∧
    cli_ser.read_bytes [0, 0, 0, 1] = .error .DisconnectedStream := by
  have h := zero_len_frame_decode_rejects [] [] 0 0 0 1
  exact ⟨(zero_len_frame_decode_rejects [] [] 0 0 0 0).1, h.2.2.2 (by decide)⟩

/-- C6: if `sign_up` succeeds for credentials `c`, then `log_in` against the
resulting user table with the same credentials succeeds: `sign_up` only
succeeds when no row has the username and appends the row
`(c.user, hash(c.password, salt))`, which `log_in` then finds and verifies.
-/
theorem sign_up_then_log_in (d d2 : db.Db) (c : cli_ser.Credentials) (salt : String)
    (h : db.sign_up d c salt = .ok d2) :
    db.log_in d2 c = .ok () := by
  unfold db.sign_up at h
  cases hq : db.query_user d c.user with
  | some u => rw [hq] at h; simp at h
  | none =>
    rw [hq] at h
    simp only [Except.ok.injEq] at h
    subst h
    unfold db.log_in db.query_user
    unfold db.query_user at hq
    rw [find?_append_of_none _ _ _ hq]
    simp [db.verify_password, db.hash_password]

/-- C6 witness: signing up `alice` on an empty table and logging in with the
same credentials. -/
theorem sign_up_then_log_in_witness :
    db.sign_up [] ⟨"alice", "pw"⟩ "salt" =
      .ok [{ username := "alice", password := db.hash_password "pw" "salt" }] ∧
    db.log_in [{ username := "alice", password := db.hash_password "pw" "salt" }]
      ⟨"alice", "pw"⟩ = .ok () :=
  ⟨rfl, sign_up_then_log_in [] _ ⟨"alice", "pw"⟩ "salt" rfl⟩

/-- C1: when the central dispatcher processes `Broadcast(src, user, d)`,
then position by position in the client map: every entry whose address
differs from `src` and whose receiver is alive gets exactly
`DataFrom { data := d, from := user }` — `from` being the sending user's
name — appended to its outbound channel; the entry at the source address is
untouched; an entry whose receiver is gone is left unchanged (the failed
send is dropped silently), and, the update being pointwise, it affects no
other entry's delivery. -/
theorem broadcast_fanout_delivers (clients : server.Clients) (src : server.Addr)
    (user : cli_ser.User) (d : cli_ser.Data) :
    (server.broadcast_arm clients src user d).length = clients.length ∧
    ∀ (i : Nat) (a : server.Addr) (ch : server.Chan), clients[i]? = some (a, ch) →
      (server.broadcast_arm clients src user d)[i]? =
        some (a, if a ≠ src ∧ ch.alive = true
                 then { ch with queue := ch.queue ++ [cli_ser.ser.Msg.DataFrom d user] }
                 else ch) := by
  refine ⟨by simp [server.broadcast_arm], ?_⟩
  intro i a ch h
  exact getElem?_broadcast_arm clients src user d i a ch h

/-- C1 witness: a three-client map — the source `0`, a live peer `1`, a
peer `2` whose receiver is gone — under a broadcast from `0`. -/
theorem broadcast_fanout_delivers_witness :
    (server.broadcast_arm
        [(0, ⟨true, []⟩), (1, ⟨true, []⟩), (2, ⟨false, []⟩)] 0 "u"
        (cli_ser.Data.Text "hi"))[1]? =
      some (1, ⟨true, [cli_ser.ser.Msg.DataFrom (cli_ser.Data.Text "hi") "u"]⟩) ∧
    (server.broadcast_arm
        [(0, ⟨true, []⟩), (1, ⟨true, []⟩), (2, ⟨false, []⟩)] 0 "u"
        (cli_ser.Data.Text "hi"))[0]? = some (0, ⟨true, []⟩) ∧
    (server.broadcast_arm
        [(0, ⟨true, []⟩), (1, ⟨true, []⟩), (2, ⟨false, []⟩)] 0 "u"
        (cli_ser.Data.Text "hi"))[2]? = some (2, ⟨false, []⟩) := by
  have h := broadcast_fanout_delivers
    [(0, ⟨true, []⟩), (1, ⟨true, []⟩), (2, ⟨false, []⟩)] 0 "u" (cli_ser.Data.Text "hi")
  refine ⟨?_, ?_, ?_⟩
  · simpa using h.2 1 1 ⟨true, []⟩ rfl
  · simpa using h.2 0 0 ⟨true, []⟩ rfl
  · simpa using h.2 2 2 ⟨false, []⟩ rfl

/-- C2: on a `Greeted` connection, a `LogIn` for an unknown user is answered
with `Error(WrongUser)`, a `LogIn` with a wrong password with
`Error(WrongPassword)`, a `SignUp` for a taken name with
`Error(UsernameTaken)`, and any non-`Auth` message `m` with
`Error(NotAuthenticated(m))`; in each of these cases the handshake reports
`Continue` (the connection stays `Greeted`, the user table is unchanged)
and `register_client` leaves the client map unchanged — the connection is
not registered. -/
theorem greeted_error_responses (d : db.Db) (salt : String)
    (c : cli_ser.Credentials) (dat : cli_ser.Data) (clients : server.Clients)
    (addr : server.Addr) (fresh : server.Chan) :
    (db.query_user d c.user = none →
      server.authenticate d salt (.Auth (.LogIn c)) =
        .Continue (.Error .WrongUser) d) ∧
    (∀ u, db.query_user d c.user = some u →
      db.verify_password c.password u.password = false →
      server.authenticate d salt (.Auth (.LogIn c)) =
        .Continue (.Error .WrongPassword) d) ∧
    (∀ u, db.query_user d c.user = some u →
      server.authenticate d salt (.Auth (.SignUp c)) =
        .Continue (.Error .UsernameTaken) d) ∧
    (server.authenticate d salt (.ToAll dat) =
      .Continue (.Error (.NotAuthenticated (.ToAll dat))) d) ∧
    (∀ resp d2, server.register_client clients addr (.Continue resp d2) fresh = clients) := by
  refine ⟨?_, ?_, ?_, ?_, ?_⟩
  · intro hq
    simp [server.authenticate, db.log_in, hq]
  · intro u hq hv
    simp [server.authenticate, db.log_in, hq, hv]
  · intro u hq
    simp [server.authenticate, db.sign_up, hq]
  · rfl
  · intro resp d2
    rfl

/-- C2 witness: the four refusals on concrete tables (`bob` exists with
password `pw` hashed under salt `s`) and the no-registration fact. -/
theorem greeted_error_responses_witness :
    server.authenticate [] "s" (.Auth (.LogIn ⟨"bob", "pw"⟩)) =
      .Continue (.Error .WrongUser) [] ∧
    server.authenticate [⟨"bob", db.hash_password "pw" "s"⟩] "s"
        (.Auth (.LogIn ⟨"bob", "oops"⟩)) =
      .Continue (.Error .WrongPassword) [⟨"bob", db.hash_password "pw" "s"⟩] ∧
    server.authenticate [⟨"bob", db.hash_password "pw" "s"⟩] "s2"
        (.Auth (.SignUp ⟨"bob", "other"⟩)) =
      .Continue (.Error .UsernameTaken) [⟨"bob", db.hash_password "pw" "s"⟩] ∧
    server.authenticate [] "s" (.ToAll (.Text "hello")) =
      .Continue (.Error (.NotAuthenticated (.ToAll (.Text "hello")))) [] ∧
    server.register_client [(7, ⟨true, []⟩)] 9
      (.Continue (.Error .WrongUser) []) ⟨true, []⟩ = [(7, ⟨true, []⟩)] := by
  refine ⟨?_, ?_, ?_, ?_, ?_⟩
  · exact (greeted_error_responses [] "s" ⟨"bob", "pw"⟩ (.Text "hello") [] 0 ⟨true, []⟩).1 rfl
  · exact (greeted_error_responses [⟨"bob", db.hash_password "pw" "s"⟩] "s"
      ⟨"bob", "oops"⟩ (.Text "hello") [] 0 ⟨true, []⟩).2.1 _ rfl rfl
  · exact (greeted_error_responses [⟨"bob", db.hash_password "pw" "s"⟩] "s2"
      ⟨"bob", "other"⟩ (.Text "hello") [] 0 ⟨true, []⟩).2.2.1 _ rfl
  · exact (greeted_error_responses [] "s" ⟨"bob", "pw"⟩ (.Text "hello") [] 0 ⟨true, []⟩).2.2.2.1
  · exact (greeted_error_responses [] "s" ⟨"bob", "pw"⟩ (.Text "hello")
      [(7, ⟨true, []⟩)] 9 ⟨true, []⟩).2.2.2.2 (.Error .WrongUser) []

/-- C3: an `Auth` message read on an already-authenticated connection makes
the reader enqueue `SendErr(addr, AlreadyAuthenticated)` — and nothing else
— with the store untouched and the loop continuing (the connection stays
open and authenticated); when the dispatcher then processes that task and
`addr` is in the client map with a live channel, the client's outbound
channel receives `Error(AlreadyAuthenticated)`. -/
theorem already_authenticated_reply {σ : Type}
    (store : σ → cli_ser.User → cli_ser.Data → Except db.Error σ) (s : σ)
    (addr : server.Addr) (user : cli_ser.User) (a : cli_ser.cli.Auth)
    (clients : server.Clients) (i : Nat) (ch : server.Chan) :
    server.read_step store s addr user (.Received (.Auth a)) =
      ((s, [.SendErr addr .AlreadyAuthenticated]), true) ∧
    (clients[i]? = some (addr, ch) → ch.alive = true →
      (server.run_task clients (.SendErr addr .AlreadyAuthenticated))[i]? =
        some (addr, { ch with
          queue := ch.queue ++ [cli_ser.ser.Msg.Error .AlreadyAuthenticated] })) := by
  constructor
  · rfl
  · intro h halive
    simp only [server.run_task, server.send_err_arm, List.getElem?_map, h,
      Option.map_some]
    simp [server.try_send, halive]

/-- C3 witness: a log-in attempt on the authenticated connection `0`, with
the real store operation `db.record_msg_to_all` as the store, and delivery
of the error into client `0`'s channel. -/
theorem already_authenticated_reply_witness :
    server.read_step db.record_msg_to_all ⟨[], []⟩ 0 "u"
        (.Received (.Auth (.LogIn ⟨"u", "p"⟩))) =
      ((⟨[], []⟩, [.SendErr 0 .AlreadyAuthenticated]), true) ∧
    (server.run_task [(0, ⟨true, []⟩)] (.SendErr 0 .AlreadyAuthenticated))[0]? =
      some (0, ⟨true, [cli_ser.ser.Msg.Error .AlreadyAuthenticated]⟩) := by
  have h := already_authenticated_reply db.record_msg_to_all ⟨[], []⟩ 0 "u"
    (cli_ser.cli.Auth.LogIn ⟨"u", "p"⟩) [(0, ⟨true, []⟩)] 0 ⟨true, []⟩
  exact ⟨h.1, by simpa using h.2 rfl rfl⟩

/-- C4: a `ToAll(d)` read on the authenticated connection of `user` first
performs the store record (`Record user d`) and then enqueues
`Broadcast(addr, user, d)`, in that order; whether the store write fails or
succeeds, the tasks enqueued are exactly `[Broadcast(addr, user, d)]` and
the loop continues — a record failure is logged and does not prevent the
broadcast — and the dispatcher then delivers `DataFrom{d, user}` to every
other live client. -/
theorem record_then_broadcast {σ : Type}
    (store : σ → cli_ser.User → cli_ser.Data → Except db.Error σ) (s : σ)
    (addr : server.Addr) (user : cli_ser.User) (d : cli_ser.Data)
    (clients : server.Clients) :
    server.read_classify addr user (.Received (.ToAll d)) =
      ([.Record user d, .Enqueue (.Broadcast addr user d)], true) ∧
    (∀ e, store s user d = .error e →
      server.read_step store s addr user (.Received (.ToAll d)) =
        ((s, [.Broadcast addr user d]), true)) ∧
    (∀ s2, store s user d = .ok s2 →
      server.read_step store s addr user (.Received (.ToAll d)) =
        ((s2, [.Broadcast addr user d]), true)) ∧
    (∀ (i : Nat) (a : server.Addr) (ch : server.Chan),
      clients[i]? = some (a, ch) → a ≠ addr → ch.alive = true →
      (server.run_task clients (.Broadcast addr user d))[i]? =
        some (a, { ch with queue := ch.queue ++ [cli_ser.ser.Msg.DataFrom d user] })) := by
  refine ⟨rfl, ?_, ?_, ?_⟩
  · intro e he
    simp [server.read_step, server.read_classify, server.apply_action, he]
  · intro s2 hs
    simp [server.read_step, server.read_classify, server.apply_action, hs]
  · intro i a ch h hne halive
    rw [show server.run_task clients (.Broadcast addr user d) =
      server.broadcast_arm clients addr user d from rfl]
    rw [getElem?_broadcast_arm clients addr user d i a ch h]
    simp [hne, halive]

/-- C4 witness: the record failing (a store stub erring with `Database`)
does not stop the broadcast; the record succeeding with the real
`db.record_msg_to_all` appends the message row; and the broadcast from `0`
is delivered into live client `1`'s channel. -/
theorem record_then_broadcast_witness :
    server.read_step (fun (_ : Unit) _ _ => .error db.Error.Database) () 0 "u"
        (.Received (.ToAll (.Text "hi"))) =
      (((), [.Broadcast 0 "u" (.Text "hi")]), true) ∧
    server.read_step db.record_msg_to_all
        ⟨[⟨"u", db.hash_password "p" "s"⟩], []⟩ 0 "u"
        (.Received (.ToAll (.Text "hi"))) =
      ((⟨[⟨"u", db.hash_password "p" "s"⟩], [⟨"u", .Text "hi"⟩]⟩,
        [.Broadcast 0 "u" (.Text "hi")]), true) ∧
    (server.run_task [(1, ⟨true, []⟩)] (.Broadcast 0 "u" (.Text "hi")))[0]? =
      some (1, ⟨true, [cli_ser.ser.Msg.DataFrom (.Text "hi") "u"]⟩) := by
  refine ⟨?_, ?_, ?_⟩
  · exact (record_then_broadcast (fun (_ : Unit) _ _ => .error db.Error.Database)
      () 0 "u" (.Text "hi") []).2.1 db.Error.Database rfl
  · exact (record_then_broadcast db.record_msg_to_all
      ⟨[⟨"u", db.hash_password "p" "s"⟩], []⟩ 0 "u" (.Text "hi") []).2.2.1 _ rfl
  · have h := (record_then_broadcast db.record_msg_to_all
      ⟨[], []⟩ 0 "u" (.Text "hi") [(1, ⟨true, []⟩)]).2.2.2 0 1 ⟨true, []⟩ rfl
      (by decide) rfl
    simpa using h

/-- C8: `save_as_png` on a PNG-format payload returns exactly what `save`
returns (the file written at the returned path holding precisely the
payload's bytes); on any other format it decodes under the declared format
— failing with `DecodeImg` when the decode fails — re-encodes as PNG —
failing with `ConvertImg` when that fails — and writes the re-encoded bytes
to `directory/<timestamp>.png`. -/
theorem save_as_png_spec (lib : cli_ser.ImgLib) (i : cli_ser.Image)
    (dir : FsPath) (now : String) (fs : FS) :
    (i.format = .Png →
      cli_ser.Image.save_as_png lib i dir now fs =
        .ok (cli_ser.Image.save i dir now fs) ∧
      (cli_ser.Image.save i dir now fs).1 (cli_ser.Image.save i dir now fs).2 =
        some i.bytes) ∧
    (i.format ≠ .Png → lib.decode i.format i.bytes = none →
      cli_ser.Image.save_as_png lib i dir now fs = .error .DecodeImg) ∧
    (∀ img, i.format ≠ .Png → lib.decode i.format i.bytes = some img →
      lib.write_png img = none →
      cli_ser.Image.save_as_png lib i dir now fs = .error .ConvertImg) ∧
    (∀ img png, i.format ≠ .Png → lib.decode i.format i.bytes = some img →
      lib.write_png img = some png →
      cli_ser.Image.save_as_png lib i dir now fs =
        .ok (fsWrite fs (dir ++ [now ++ ".png"]) png, dir ++ [now ++ ".png"])) ∧
    cli_ser.Image.create_path dir .Png now = dir ++ [now ++ ".png"] := by
  have hpath : cli_ser.Image.create_path dir .Png now = dir ++ [now ++ ".png"] := by
    simp only [cli_ser.Image.create_path, cli_ser.ImageFormat.ext]
    rw [String.append_assoc]
    rfl
  refine ⟨?_, ?_, ?_, ?_, hpath⟩
  · intro hfmt
    constructor
    · simp [cli_ser.Image.save_as_png, hfmt]
    · simp [cli_ser.Image.save, fsWrite]
  · intro hfmt hdec
    simp [cli_ser.Image.save_as_png, hfmt, hdec]
  · intro img hfmt hdec henc
    simp [cli_ser.Image.save_as_png, hfmt, hdec, henc]
  · intro img png hfmt hdec henc
    simp only [cli_ser.Image.save_as_png, if_pos hfmt, hdec, henc, hpath]

/-- C8 witness: a trivial image library whose decoder yields the byte
buffer itself and whose PNG encoder wraps it; a PNG payload saved as-is and
a JPEG payload re-encoded to `t.png`. -/
theorem save_as_png_spec_witness :
    cli_ser.Image.save_as_png
        ⟨fun _ => none, fun _ b => some b, fun b => some (9 :: b)⟩
        ⟨.Png, [1, 2]⟩ ["imgs"] "t" (fun _ => none) =
      .ok (cli_ser.Image.save ⟨.Png, [1, 2]⟩ ["imgs"] "t" (fun _ => none)) ∧
    (cli_ser.Image.save ⟨.Png, [1, 2]⟩ ["imgs"] "t" (fun _ => none)).1
      (cli_ser.Image.save ⟨.Png, [1, 2]⟩ ["imgs"] "t" (fun _ => none)).2 =
        some [1, 2] ∧
    cli_ser.Image.save_as_png
        ⟨fun _ => none, fun _ b => some b, fun b => some (9 :: b)⟩
        ⟨.Jpeg, [1, 2]⟩ ["imgs"] "t" (fun _ => none) =
      .ok (fsWrite (fun _ => none) (["imgs"] ++ ["t" ++ ".png"]) (9 :: [1, 2]),
           ["imgs"] ++ ["t" ++ ".png"]) ∧
    cli_ser.Image.save_as_png
        ⟨fun _ => none, fun _ _ => none, fun b => some (9 :: b)⟩
        ⟨.Jpeg, [1, 2]⟩ ["imgs"] "t" (fun _ => none) = .error .DecodeImg ∧
    cli_ser.Image.save_as_png
        ⟨fun _ => none, fun _ b => some b, fun _ => none⟩
        ⟨.Jpeg, [1, 2]⟩ ["imgs"] "t" (fun _ => none) = .error .ConvertImg := by
  refine ⟨?_, ?_, ?_, ?_, ?_⟩
  · exact ((save_as_png_spec ⟨fun _ => none, fun _ b => some b, fun b => some (9 :: b)⟩
      ⟨.Png, [1, 2]⟩ ["imgs"] "t" (fun _ => none)).1 rfl).1
  · exact ((save_as_png_spec ⟨fun _ => none, fun _ b => some b, fun b => some (9 :: b)⟩
      ⟨.Png, [1, 2]⟩ ["imgs"] "t" (fun _ => none)).1 rfl).2
  · exact (save_as_png_spec ⟨fun _ => none, fun _ b => some b, fun b => some (9 :: b)⟩
      ⟨.Jpeg, [1, 2]⟩ ["imgs"] "t" (fun _ => none)).2.2.2.1 [1, 2] (9 :: [1, 2])
      (by decide) rfl rfl
  · exact (save_as_png_spec ⟨fun _ => none, fun _ _ => none, fun b => some (9 :: b)⟩
      ⟨.Jpeg, [1, 2]⟩ ["imgs"] "t" (fun _ => none)).2.1 (by decide) rfl
  · exact (save_as_png_spec ⟨fun _ => none, fun _ b => some b, fun _ => none⟩
      ⟨.Jpeg, [1, 2]⟩ ["imgs"] "t" (fun _ => none)).2.2.1 [1, 2] (by decide) rfl rfl

/-- C9: on the client, with `w :: rest` the whitespace-split words of the
input line — `.quit` followed by any further token, `.login` or `.signup`
with other than exactly two following tokens, `.file` or `.image` with
other than exactly one, and any unknown dotted verb all parse as an error;
a line whose first token does not start with `.` parses as the text command
whose message is `ToAll(Text(line))`; and a parse error is only reported —
`handle_input` sends nothing for it. -/
theorem command_parse_spec (line w : String) (rest : List String)
    (lib : cli_ser.ImgLib) (fs : FS) (e : client.ParseInputError) :
    (client.split_whitespace line = w :: rest →
      ((client.strip_dot w = some "quit" → rest ≠ [] →
         ∃ err, client.Command.from_str line = .error err) ∧
       (client.strip_dot w = some "login" → rest.length ≠ 2 →
         ∃ err, client.Command.from_str line = .error err) ∧
       (client.strip_dot w = some "signup" → rest.length ≠ 2 →
         ∃ err, client.Command.from_str line = .error err) ∧
       (client.strip_dot w = some "file" → rest.length ≠ 1 →
         ∃ err, client.Command.from_str line = .error err) ∧
       (client.strip_dot w = some "image" → rest.length ≠ 1 →
         ∃ err, client.Command.from_str line = .error err) ∧
       (∀ v, client.strip_dot w = some v →
         v ≠ "quit" → v ≠ "file" → v ≠ "image" → v ≠ "login" → v ≠ "signup" →
         ∃ err, client.Command.from_str line = .error err) ∧
       (client.strip_dot w = none →
         client.Command.from_str line = .ok (.Msg (.NoCmd line)) ∧
         client.make_message lib fs (.NoCmd line) = .ok (.ToAll (.Text line))))) ∧
    client.handle_input lib fs (.error e) = none := by
  refine ⟨?_, rfl⟩
  intro hsplit
  have hfrom : client.Command.from_str line =
      (match client.strip_dot w with
       | some v => client.parse_verb v rest
       | none => .ok (.Msg (.NoCmd line))) := by
    rw [client.Command.from_str, hsplit]
  refine ⟨?_, ?_, ?_, ?_, ?_, ?_, ?_⟩
  · intro hd hne
    rw [hfrom, hd]
    match rest, hne with
    | r :: rs, _ => exact ⟨_, rfl⟩
  · intro hd hlen
    rw [hfrom, hd]
    match rest, hlen with
    | [], _ => exact ⟨_, rfl⟩
    | [a], _ => exact ⟨_, rfl⟩
    | a :: b :: c :: tl, _ => exact ⟨_, rfl⟩
    | [a, b], h => exact absurd rfl h
  · intro hd hlen
    rw [hfrom, hd]
    match rest, hlen with
    | [], _ => exact ⟨_, rfl⟩
    | [a], _ => exact ⟨_, rfl⟩
    | a :: b :: c :: tl, _ => exact ⟨_, rfl⟩
    | [a, b], h => exact absurd rfl h
  · intro hd hlen
    rw [hfrom, hd]
    match rest, hlen with
    | [], _ => exact ⟨_, rfl⟩
    | a :: b :: tl, _ => exact ⟨_, rfl⟩
    | [a], h => exact absurd rfl h
  · intro hd hlen
    rw [hfrom, hd]
    match rest, hlen with
    | [], _ => exact ⟨_, rfl⟩
    | a :: b :: tl, _ => exact ⟨_, rfl⟩
    | [a], h => exact absurd rfl h
  · intro v hd h1 h2 h3 h4 h5
    rw [hfrom, hd]
    simp only [client.parse_verb, if_neg h1, if_neg h2, if_neg h3, if_neg h4, if_neg h5]
    exact ⟨_, rfl⟩
  · intro hd
    rw [hfrom, hd]
    exact ⟨rfl, rfl⟩

/-- C9 witness: concrete malformed lines (`.quit` with a trailing token, a
one-argument `.login`, a two-argument `.file`, the unknown verb `.exit`)
each parse as an error that `handle_input` does not send, and a plain line
parses as the text message of the whole line. -/
theorem command_parse_spec_witness :
    (∃ err, client.Command.from_str ".quit x" = .error err) ∧
    (∃ err, client.Command.from_str ".login bob" = .error err) ∧
    (∃ err, client.Command.from_str ".file a b" = .error err) ∧
    (∃ err, client.Command.from_str ".exit" = .error err) ∧
    client.Command.from_str "hi there" = .ok (.Msg (.NoCmd "hi there")) ∧
    client.make_message ⟨fun _ => none, fun _ _ => none, fun _ => none⟩
      (fun _ => none) (.NoCmd "hi there") = .ok (.ToAll (.Text "hi there")) ∧
    client.handle_input ⟨fun _ => none, fun _ _ => none, fun _ => none⟩
      (fun _ => none) (.error ⟨"boom"⟩) = none := by
  refine ⟨?_, ?_, ?_, ?_, ?_, ?_, ?_⟩
  · exact ((command_parse_spec ".quit x" ".quit" ["x"]
      ⟨fun _ => none, fun _ _ => none, fun _ => none⟩ (fun _ => none) ⟨"boom"⟩).1
      (by decide)).1 rfl (by decide)
  · exact ((command_parse_spec ".login bob" ".login" ["bob"]
      ⟨fun _ => none, fun _ _ => none, fun _ => none⟩ (fun _ => none) ⟨"boom"⟩).1
      (by decide)).2.1 rfl (by decide)
  · exact ((command_parse_spec ".file a b" ".file" ["a", "b"]
      ⟨fun _ => none, fun _ _ => none, fun _ => none⟩ (fun _ => none) ⟨"boom"⟩).1
      (by decide)).2.2.2.1 rfl (by decide)
  · exact ((command_parse_spec ".exit" ".exit" []
      ⟨fun _ => none, fun _ _ => none, fun _ => none⟩ (fun _ => none) ⟨"boom"⟩).1
      (by decide)).2.2.2.2.2.1 "exit" rfl (by decide) (by decide) (by decide)
      (by decide) (by decide)
  · exact (((command_parse_spec "hi there" "hi" ["there"]
      ⟨fun _ => none, fun _ _ => none, fun _ => none⟩ (fun _ => none) ⟨"boom"⟩).1
      (by decide)).2.2.2.2.2.2 rfl).1
  · exact (((command_parse_spec "hi there" "hi" ["there"]
      ⟨fun _ => none, fun _ _ => none, fun _ => none⟩ (fun _ => none) ⟨"boom"⟩).1
      (by decide)).2.2.2.2.2.2 rfl).2
  · exact (command_parse_spec "x" "x" []
      ⟨fun _ => none, fun _ _ => none, fun _ => none⟩ (fun _ => none) ⟨"boom"⟩).2

/-- The client→server→client journey of one file payload: the sender loads
the file and sends `ToAll(File)` (client `make_message` + codec `send`);
the server reader receives it (codec `receive`); the dispatcher — modelled
from the spec — forwards the data as `DataFrom { data, from: user }` which
the writer task sends; the receiving client receives it and `process_msg`
saves the file.  The unreachable non-`ToAll` arm reports the decode
error kind. -/
def client_server_client_file (lib : cli_ser.ImgLib) (config : client.Config)
    (now : String) (fs : FS) (p : FsPath) (user : cli_ser.User) (fsr : FS) :
    Except cli_ser.Error FS :=
  match cli_ser.File.from_path fs p with
  | .error e => .error e
  | .ok f =>
    match cli_ser.cli.Msg.receive (cli_ser.cli.Msg.send (.ToAll (.File f))) with
    | .error e => .error e
    | .ok (.ToAll d, _) =>
      match cli_ser.ser.Msg.receive (cli_ser.ser.Msg.send (.DataFrom d user)) with
      | .error e => .error e
      | .ok (m2, _) => .ok (client.process_msg lib config now fsr m2)
    | .ok _ => .error .DeserializeMsg

/-- C7: a file payload built by `File::from_path` carries as name the source
path's final component (lossily converted — the identity on the model's
unicode components), or `"unknown"` when the path has no final component,
and as bytes exactly the file's contents; and provided the two frames fit
the 32-bit length prefix, the client→server→client round trip ends with the
receiver's save writing exactly those bytes to the path
`config.file_dir ++ [name]`, inside the configured file directory under
that name. -/
theorem file_roundtrip (lib : cli_ser.ImgLib) (config : client.Config)
    (now : String) (fs fsr : FS) (p : FsPath) (f : cli_ser.File)
    (user : cli_ser.User)
    (h : cli_ser.File.from_path fs p = .ok f)
    (h1 : (cli_ser.encCliMsg (.ToAll (.File f))).length < 4294967296)
    (h2 : (cli_ser.encSerMsg (.DataFrom (.File f) user)).length < 4294967296) :
    (f.name = match cli_ser.file_name p with
              | some n => n
              | none => "unknown") ∧
    fs p = some f.bytes ∧
    client_server_client_file lib config now fs p user fsr =
      .ok (cli_ser.File.save f config.file_dir fsr) ∧
    cli_ser.File.save f config.file_dir fsr (config.file_dir ++ [f.name]) =
      some f.bytes := by
  have hname : f.name = (match cli_ser.file_name p with
                         | some n => n
                         | none => "unknown") ∧ fs p = some f.bytes := by
    unfold cli_ser.File.from_path at h
    cases hfs : fs p with
    | none => rw [hfs] at h; exact absurd h (by simp)
    | some bytes =>
      rw [hfs] at h
      simp only [Except.ok.injEq] at h
      subst h
      exact ⟨rfl, rfl⟩
  have hcli : cli_ser.cli.Msg.receive (cli_ser.cli.Msg.send (.ToAll (.File f))) =
      .ok (.ToAll (.File f), []) := by
    rw [show cli_ser.cli.Msg.send (.ToAll (.File f)) =
      cli_ser.cli.Msg.send (.ToAll (.File f)) ++ [] from (List.append_nil _).symm]
    exact cli_ser.cli_receive_send _ [] h1
  have hser : cli_ser.ser.Msg.receive (cli_ser.ser.Msg.send (.DataFrom (.File f) user)) =
      .ok (.DataFrom (.File f) user, []) := by
    rw [show cli_ser.ser.Msg.send (.DataFrom (.File f) user) =
      cli_ser.ser.Msg.send (.DataFrom (.File f) user) ++ [] from (List.append_nil _).symm]
    exact cli_ser.ser_receive_send _ [] h2
  refine ⟨hname.1, hname.2, ?_, by simp [cli_ser.File.save, fsWrite]⟩
  rw [client_server_client_file, h]
  simp only [hcli, hser]
  rfl

/-- C7 witness: the file `d/a.txt` with contents `[7]` round-tripped to the
receiver's `files` directory by user `bob`. -/
theorem file_roundtrip_witness :
    cli_ser.File.from_path (fsWrite (fun _ => none) ["d", "a.txt"] [7])
      ["d", "a.txt"] = .ok ⟨"a.txt", [7]⟩ ∧
    client_server_client_file
        ⟨fun _ => none, fun _ _ => none, fun _ => none⟩
        ⟨["files"], ["imgs"], false⟩ "t"
        (fsWrite (fun _ => none) ["d", "a.txt"] [7]) ["d", "a.txt"] "bob"
        (fun _ => none) =
      .ok (cli_ser.File.save ⟨"a.txt", [7]⟩ ["files"] (fun _ => none)) ∧
    cli_ser.File.save ⟨"a.txt", [7]⟩ ["files"] (fun _ => none)
      (["files"] ++ ["a.txt"]) = some [7] := by
  have h := file_roundtrip ⟨fun _ => none, fun _ _ => none, fun _ => none⟩
    ⟨["files"], ["imgs"], false⟩ "t"
    (fsWrite (fun _ => none) ["d", "a.txt"] [7]) (fun _ => none)
    ["d", "a.txt"] ⟨"a.txt", [7]⟩ "bob" rfl (by decide) (by decide)
  exact ⟨rfl, h.2.2.1, h.2.2.2⟩
